import Mathlib

/-!
# Verification of the CogStack annotations-ingester core

Shallow embedding of the batch annotation indexing pipeline
(`ingester/annotations_indexer.py`, `ingester/nlp_service.py`,
`ingester/utils.py`, `ingester/es_common.py`) and proofs of the
frozen claims about it.

JSON-like values (Python dicts/lists as handled by the ingester) are
modelled by `JVal`; Python dicts are association lists preserving
insertion order, as Python 3.7+ dicts do.
-/

/-- JSON-like Python value: the data the ingester passes around
(documents, annotation entities, NLP responses, ES operation bodies). -/
inductive JVal where
  | null : JVal
  | bool (b : Bool) : JVal
  | num (n : Int) : JVal
  | str (s : String) : JVal
  | arr (xs : List JVal) : JVal
  | obj (fields : List (String × JVal)) : JVal
deriving Repr

mutual

/-- Structural equality of values (Python `==` on parsed JSON data). -/
def JVal.beq : JVal → JVal → Bool
  | .null, .null => true
  | .bool a, .bool b => a == b
  | .num a, .num b => a == b
  | .str a, .str b => a == b
  | .arr xs, .arr ys => JVal.beqList xs ys
  | .obj xs, .obj ys => JVal.beqFields xs ys
  | _, _ => false

def JVal.beqList : List JVal → List JVal → Bool
  | [], [] => true
  | x :: xs, y :: ys => JVal.beq x y && JVal.beqList xs ys
  | _, _ => false

def JVal.beqFields : List (String × JVal) → List (String × JVal) → Bool
  | [], [] => true
  | (k, v) :: xs, (k', v') :: ys => k == k' && JVal.beq v v' && JVal.beqFields xs ys
  | _, _ => false

end

mutual

theorem JVal.beq_iff : ∀ (a b : JVal), (JVal.beq a b = true) ↔ a = b
  | .null, b => by cases b <;> simp [JVal.beq]
  | .bool x, b => by cases b <;> simp [JVal.beq]
  | .num x, b => by cases b <;> simp [JVal.beq]
  | .str x, b => by cases b <;> simp [JVal.beq]
  | .arr xs, b => by cases b <;> simp [JVal.beq, JVal.beqList_iff xs]
  | .obj xs, b => by cases b <;> simp [JVal.beq, JVal.beqFields_iff xs]

theorem JVal.beqList_iff : ∀ (xs ys : List JVal), (JVal.beqList xs ys = true) ↔ xs = ys
  | [], ys => by cases ys <;> simp [JVal.beqList]
  | x :: xs, ys => by
      cases ys <;> simp [JVal.beqList, JVal.beq_iff x, JVal.beqList_iff xs]

theorem JVal.beqFields_iff :
    ∀ (xs ys : List (String × JVal)), (JVal.beqFields xs ys = true) ↔ xs = ys
  | [], ys => by cases ys <;> simp [JVal.beqFields]
  | (k, v) :: xs, ys => by
      cases ys with
      | nil => simp [JVal.beqFields]
      | cons hd tl =>
          obtain ⟨k', v'⟩ := hd
          simp [JVal.beqFields, JVal.beq_iff v, JVal.beqFields_iff xs, and_assoc]

end

instance : DecidableEq JVal := fun a b =>
  decidable_of_iff (JVal.beq a b = true) (JVal.beq_iff a b)

/-- A Python dict as an ordered association list (Python 3.7+ preserves
insertion order). -/
abbrev JObj := List (String × JVal)

/-- `d[k]` lookup on a dict: first binding for `k`, if any. -/
def jget (k : String) (o : JObj) : Option JVal :=
  o.lookup k

example : jget "a" [("a", .num 1), ("b", .null)] = some (.num 1) := by decide

/-!
## `ingester/utils.py`: `remove_duplicate_records`

```python
def remove_duplicate_records(list_of_dicts):
  list_of_strings = [json.dumps(d, sort_keys=True) for d in list_of_dicts]
  list_of_strings = set(list_of_strings)
  return [json.loads(s) for s in list_of_strings]
```

`json.dumps(d, sort_keys=True)` serializes a value with object keys
recursively sorted; `json.loads` of that string yields the value with its
object keys recursively sorted.  Two records produce the same string iff
they are equal after recursive key sorting, so the dump/parse round trip
is modelled by `canonicalForm` (recursive key sorting), and the `set`
(whose iteration order is unspecified) by list deduplication.
-/

/-- Lexicographic "less or equal" on char lists by code point: Python's
string order, used by `sorted`/`sort_keys` on dict keys. -/
def charsLe : List Char → List Char → Bool
  | [], _ => true
  | _ :: _, [] => false
  | a :: as, b :: bs =>
      if a < b then true else if b < a then false else charsLe as bs

/-- Python string order on keys (code-point lexicographic). -/
def keyLe (a b : String) : Bool :=
  charsLe a.data b.data

/-- Key order lifted to dict fields. -/
def fieldLe (p q : String × JVal) : Prop :=
  keyLe p.1 q.1 = true

instance : DecidableRel fieldLe := fun p q => instDecidableEqBool _ _

/-- Sort a field list by key (Python `sort_keys=True` at one level;
`sorted` is a stable comparison sort, modelled by insertion sort). -/
def sortFields (fs : List (String × JVal)) : List (String × JVal) :=
  List.insertionSort fieldLe fs

mutual

/-- Canonical form of a record: recursively sort all object keys.
Models `json.loads(json.dumps(d, sort_keys=True))`; two records have
byte-identical canonical serializations iff their canonical forms are
equal. -/
def canonicalForm : JVal → JVal
  | .null => .null
  | .bool b => .bool b
  | .num n => .num n
  | .str s => .str s
  | .arr xs => .arr (canonicalFormList xs)
  | .obj fs => .obj (sortFields (canonicalFormFields fs))

def canonicalFormList : List JVal → List JVal
  | [] => []
  | x :: xs => canonicalForm x :: canonicalFormList xs

def canonicalFormFields : List (String × JVal) → List (String × JVal)
  | [] => []
  | (k, v) :: fs => (k, canonicalForm v) :: canonicalFormFields fs

end

/-- Deduplication of the canonical strings: models Python `set(...)`
(one representative per distinct canonical form; iteration order of a
`set` is unspecified, this model keeps the last occurrence). -/
def dedupRecords : List JVal → List JVal
  | [] => []
  | x :: xs => if x ∈ xs then dedupRecords xs else x :: dedupRecords xs

/-- `remove_duplicate_records` (utils.py lines 16-19): canonicalize every
record, keep one representative per distinct canonical form. -/
def remove_duplicate_records (list_of_dicts : List JVal) : List JVal :=
  dedupRecords (list_of_dicts.map canonicalForm)

example :
    remove_duplicate_records
      [.obj [("a", .num 1), ("b", .num 2)], .obj [("b", .num 2), ("a", .num 1)]]
    = [.obj [("a", .num 1), ("b", .num 2)]] := by
  simp only [remove_duplicate_records, canonicalForm, canonicalFormFields, canonicalFormList,
    sortFields, dedupRecords, List.map]
  decide

example : keyLe "a" "b" = true := by decide

/-! ### Order lemmas for the canonical form -/

theorem charsLe_refl : ∀ as, charsLe as as = true
  | [] => rfl
  | a :: as => by simp [charsLe, lt_irrefl, charsLe_refl as]

theorem charsLe_total : ∀ as bs, charsLe as bs = true ∨ charsLe bs as = true
  | [], _ => .inl rfl
  | _ :: _, [] => .inr rfl
  | a :: as, b :: bs => by
      rcases lt_trichotomy a b with h | h | h
      · exact .inl (by simp [charsLe, h])
      · subst h
        rcases charsLe_total as bs with h' | h'
        · exact .inl (by simp [charsLe, lt_irrefl, h'])
        · exact .inr (by simp [charsLe, lt_irrefl, h'])
      · exact .inr (by simp [charsLe, h])

theorem charsLe_trans :
    ∀ as bs cs, charsLe as bs = true → charsLe bs cs = true → charsLe as cs = true
  | [], _, _ => fun _ _ => rfl
  | a :: as, [], _ => by simp [charsLe]
  | _ :: _, _ :: _, [] => by simp [charsLe]
  | a :: as, b :: bs, c :: cs => by
      intro h1 h2
      rcases lt_trichotomy a b with hab | hab | hab
      · rcases lt_trichotomy b c with hbc | hbc | hbc
        · simp [charsLe, lt_trans hab hbc]
        · subst hbc; simp [charsLe, hab]
        · simp [charsLe, hbc, not_lt_of_lt hbc] at h2
      · subst hab
        rcases lt_trichotomy a c with hac | hac | hac
        · simp [charsLe, hac]
        · subst hac
          simp only [charsLe, lt_irrefl, if_false] at h1 h2 ⊢
          exact charsLe_trans as bs cs h1 h2
        · simp [charsLe, hac, not_lt_of_lt hac] at h2
      · simp [charsLe, hab, not_lt_of_lt hab] at h1

theorem keyLe_total (a b : String) : keyLe a b = true ∨ keyLe b a = true :=
  charsLe_total a.data b.data

theorem keyLe_trans {a b c : String} (h1 : keyLe a b = true) (h2 : keyLe b c = true) :
    keyLe a c = true :=
  charsLe_trans a.data b.data c.data h1 h2

instance : IsTotal (String × JVal) fieldLe :=
  ⟨fun p q => keyLe_total p.1 q.1⟩

instance : IsTrans (String × JVal) fieldLe :=
  ⟨fun _ _ _ => keyLe_trans⟩

theorem sortFields_sorted (fs : List (String × JVal)) :
    List.Sorted fieldLe (sortFields fs) :=
  List.sorted_insertionSort fieldLe fs

theorem sortFields_eq_of_sorted {fs : List (String × JVal)}
    (h : List.Sorted fieldLe fs) : sortFields fs = fs :=
  h.insertionSort_eq

theorem mem_sortFields {p : String × JVal} {fs : List (String × JVal)} :
    p ∈ sortFields fs ↔ p ∈ fs :=
  (List.perm_insertionSort fieldLe fs).mem_iff

/-! ### Canonical form is idempotent -/

theorem canonicalFormList_eq_map :
    ∀ xs, canonicalFormList xs = xs.map canonicalForm
  | [] => rfl
  | x :: xs => by rw [canonicalFormList, canonicalFormList_eq_map xs, List.map_cons]

theorem canonicalFormFields_eq_map :
    ∀ fs, canonicalFormFields fs = fs.map fun p => (p.1, canonicalForm p.2)
  | [] => rfl
  | (k, v) :: fs => by rw [canonicalFormFields, canonicalFormFields_eq_map fs, List.map_cons]

mutual

theorem canonicalForm_idem : ∀ v, canonicalForm (canonicalForm v) = canonicalForm v
  | .null => rfl
  | .bool _ => rfl
  | .num _ => rfl
  | .str _ => rfl
  | .arr xs => by
      rw [canonicalForm, canonicalForm, canonicalFormList_eq_map,
        List.map_congr_left fun x hx => canonicalFormList_fix xs x hx, List.map_id']
  | .obj fs => by
      rw [canonicalForm, canonicalForm, canonicalFormFields_eq_map]
      have hfix : ∀ p ∈ sortFields (canonicalFormFields fs),
          ((p.1, canonicalForm p.2) : String × JVal) = p := by
        intro p hp
        have := canonicalFormFields_fix fs p (mem_sortFields.mp hp)
        exact Prod.ext rfl this
      rw [List.map_congr_left hfix, List.map_id',
        sortFields_eq_of_sorted (sortFields_sorted _)]

theorem canonicalFormList_fix : ∀ xs, ∀ x ∈ canonicalFormList xs, canonicalForm x = x
  | [], _, hx => by simp [canonicalFormList] at hx
  | y :: ys, x, hx => by
      rw [canonicalFormList] at hx
      rcases List.mem_cons.mp hx with h | h
      · subst h; exact canonicalForm_idem y
      · exact canonicalFormList_fix ys x h

theorem canonicalFormFields_fix :
    ∀ fs, ∀ p ∈ canonicalFormFields fs, canonicalForm p.2 = p.2
  | [], _, hp => by simp [canonicalFormFields] at hp
  | (k, v) :: gs, p, hp => by
      rw [canonicalFormFields] at hp
      rcases List.mem_cons.mp hp with h | h
      · subst h; exact canonicalForm_idem v
      · exact canonicalFormFields_fix gs p h

end

/-! ### Deduplication lemmas -/

theorem mem_dedupRecords {x : JVal} : ∀ {l : List JVal}, x ∈ dedupRecords l ↔ x ∈ l
  | [] => Iff.rfl
  | y :: ys => by
      rw [dedupRecords]
      split
      · rw [mem_dedupRecords]
        constructor
        · exact fun h => List.mem_cons_of_mem _ h
        · intro h
          rcases List.mem_cons.mp h with h | h
          · subst h; assumption
          · exact h
      · simp only [List.mem_cons, mem_dedupRecords]

theorem dedupRecords_nodup : ∀ l : List JVal, (dedupRecords l).Nodup
  | [] => List.nodup_nil
  | y :: ys => by
      rw [dedupRecords]
      split
      · exact dedupRecords_nodup ys
      · exact List.nodup_cons.mpr ⟨fun h => ‹y ∉ ys› (mem_dedupRecords.mp h),
          dedupRecords_nodup ys⟩

theorem dedupRecords_eq_of_nodup : ∀ {l : List JVal}, l.Nodup → dedupRecords l = l
  | [], _ => rfl
  | y :: ys, h => by
      rw [dedupRecords, if_neg (List.nodup_cons.mp h).1,
        dedupRecords_eq_of_nodup (List.nodup_cons.mp h).2]

theorem remove_duplicate_records_fix {X : List JVal} :
    ∀ y ∈ remove_duplicate_records X, canonicalForm y = y := by
  intro y hy
  rcases List.mem_map.mp (mem_dedupRecords.mp hy) with ⟨x, _, hx⟩
  rw [← hx, canonicalForm_idem]

theorem remove_duplicate_records_idem (X : List JVal) :
    remove_duplicate_records (remove_duplicate_records X)
      = remove_duplicate_records X := by
  rw [remove_duplicate_records,
    List.map_congr_left (fun y hy => remove_duplicate_records_fix y hy), List.map_id',
    remove_duplicate_records,
    dedupRecords_eq_of_nodup (dedupRecords_nodup _)]

/-- C5: `remove_duplicate_records` is idempotent (as a multiset), its output
never contains two records with identical canonical (field-order-independent)
forms, and each output record's canonical form is the canonical form of some
input record. -/
theorem claim_C5_dedup_idempotent_no_duplicates (X : List JVal) :
    ((remove_duplicate_records (remove_duplicate_records X) : List JVal) : Multiset JVal)
        = (remove_duplicate_records X : Multiset JVal)
    ∧ (remove_duplicate_records X).Pairwise
        (fun a b => canonicalForm a ≠ canonicalForm b)
    ∧ (∀ y ∈ remove_duplicate_records X, ∃ x ∈ X, canonicalForm y = canonicalForm x) := by
  refine ⟨by rw [remove_duplicate_records_idem], ?_, ?_⟩
  · have hnd : (remove_duplicate_records X).Pairwise (· ≠ ·) :=
      dedupRecords_nodup (X.map canonicalForm)
    exact hnd.imp_of_mem fun {a b} ha hb hne hc =>
      hne (by rw [← remove_duplicate_records_fix a ha,
                  ← remove_duplicate_records_fix b hb, hc])
  · intro y hy
    rcases List.mem_map.mp (mem_dedupRecords.mp hy) with ⟨x, hxX, hx⟩
    exact ⟨x, hxX, by rw [← hx, canonicalForm_idem]⟩

theorem claim_C5_dedup_idempotent_no_duplicates_witness :
    ((remove_duplicate_records (remove_duplicate_records
        [JVal.obj [("b", .num 2), ("a", .num 1)], JVal.obj [("a", .num 1), ("b", .num 2)]])
      : List JVal) : Multiset JVal)
      = (remove_duplicate_records
          [JVal.obj [("b", .num 2), ("a", .num 1)], JVal.obj [("a", .num 1), ("b", .num 2)]]
         : Multiset JVal)
    ∧ ∃ x ∈ [JVal.obj [("b", .num 2), ("a", .num 1)], JVal.obj [("a", .num 1), ("b", .num 2)]],
        canonicalForm (JVal.obj [("a", .num 1), ("b", .num 2)]) = canonicalForm x := by
  refine ⟨(claim_C5_dedup_idempotent_no_duplicates _).1,
    (claim_C5_dedup_idempotent_no_duplicates _).2.2 _ ?_⟩
  simp only [remove_duplicate_records, canonicalForm, canonicalFormFields, canonicalFormList,
    sortFields, dedupRecords, List.map]
  decide

/-!
## `BatchAnnotationsIndexer.index_range` windowing (annotations_indexer.py 842-861)

```python
continue_read = True
seg_batch_date_start = batch_date_start
seg_batch_date_end = batch_date_start
while continue_read:
    seg_batch_date_start = seg_batch_date_end
    dt_seg_batch_date_end = strptime(seg_batch_date_start) + timedelta(days=interval)
    seg_batch_date_end = strftime(dt_seg_batch_date_end)
    if dt_seg_batch_date_end >= strptime(batch_date_end):
        seg_batch_date_end = batch_date_end
        continue_read = False
    ... process window [seg_batch_date_start, seg_batch_date_end] ...
```

Dates are modelled by their proleptic-Gregorian day numbers: `strptime`
turns a date string into a date, `timedelta(days=n)` adds `n` to the day
number, and date comparison is day-number comparison, so the loop is a
loop over day numbers.  The `fuel` argument bounds the number of loop
iterations purely to make the model total; with `0 < interval` the loop
makes at most `batchEnd - segStart + 1` iterations, so the chosen fuel is
never exhausted (`indexRangeLoop_fuel_irrelevant`-style hypotheses appear
in the lemmas instead).
-/

def isLeapYear (y : Nat) : Bool :=
  y % 4 == 0 && (y % 100 != 0 || y % 400 == 0)

def daysInMonth (y m : Nat) : Nat :=
  if m == 2 then (if isLeapYear y then 29 else 28)
  else if m == 4 || m == 6 || m == 9 || m == 11 then 30
  else 31

def daysBeforeMonth (y : Nat) : Nat → Nat
  | 0 => 0
  | 1 => 0
  | m + 1 => daysBeforeMonth y m + daysInMonth y m

/-- Day number of a proleptic-Gregorian calendar date (days since
0001-01-01, as Python's `datetime.date.toordinal` counts). -/
def daysFromCivil (y m d : Nat) : Nat :=
  365 * (y - 1) + (y - 1) / 4 - (y - 1) / 100 + (y - 1) / 400
    + daysBeforeMonth y m + (d - 1)

/-- One `while continue_read` loop of `index_range`, on day numbers:
emits the window `[segStart, min (segStart + interval) batchEnd]` and
continues until `segStart + interval >= batchEnd`. -/
def indexRangeLoop (fuel interval segStart batchEnd : Nat) : List (Nat × Nat) :=
  match fuel with
  | 0 => []
  | fuel + 1 =>
      if batchEnd ≤ segStart + interval then
        [(segStart, batchEnd)]
      else
        (segStart, segStart + interval)
          :: indexRangeLoop fuel interval (segStart + interval) batchEnd

/-- The windows generated by `index_range(batch_date_start, batch_date_end)`. -/
def index_range_windows (interval batchStart batchEnd : Nat) : List (Nat × Nat) :=
  indexRangeLoop (batchEnd - batchStart + 1) interval batchStart batchEnd

example :
    index_range_windows 30 (daysFromCivil 2020 1 1) (daysFromCivil 2020 3 1)
      = [(daysFromCivil 2020 1 1, daysFromCivil 2020 1 31),
         (daysFromCivil 2020 1 31, daysFromCivil 2020 3 1)] := by decide

theorem indexRangeLoop_end_min :
    ∀ (fuel interval segStart batchEnd : Nat), 0 < interval →
      batchEnd - segStart < fuel →
      ∀ w ∈ indexRangeLoop fuel interval segStart batchEnd,
        w.2 = min (w.1 + interval) batchEnd
  | 0, _, _, _, _, hf => by omega
  | fuel + 1, interval, segStart, batchEnd, hi, hf => by
      intro w hw
      rw [indexRangeLoop] at hw
      split at hw
      · rcases List.mem_singleton.mp hw with rfl
        simp only
        omega
      · rcases List.mem_cons.mp hw with rfl | hw
        · simp only
          omega
        · exact indexRangeLoop_end_min fuel interval (segStart + interval) batchEnd hi
            (by omega) w hw

theorem indexRangeLoop_first :
    ∀ (fuel interval segStart batchEnd : Nat), batchEnd - segStart < fuel →
      ∃ e1 tl, indexRangeLoop fuel interval segStart batchEnd = (segStart, e1) :: tl
  | 0, _, _, _, hf => by omega
  | fuel + 1, interval, segStart, batchEnd, _ => by
      rw [indexRangeLoop]
      split
      · exact ⟨batchEnd, [], rfl⟩
      · exact ⟨segStart + interval, _, rfl⟩

theorem indexRangeLoop_contiguous :
    ∀ (fuel interval segStart batchEnd : Nat), 0 < interval →
      batchEnd - segStart < fuel →
      List.Chain' (fun a b => a.2 = b.1) (indexRangeLoop fuel interval segStart batchEnd)
  | 0, _, _, _, _, _ => List.chain'_nil
  | fuel + 1, interval, segStart, batchEnd, hi, hf => by
      rw [indexRangeLoop]
      split
      · exact List.chain'_singleton _
      · rcases indexRangeLoop_first fuel interval (segStart + interval) batchEnd (by omega)
          with ⟨e1, tl, heq⟩
        rw [heq]
        exact List.Chain'.cons rfl (heq ▸ indexRangeLoop_contiguous fuel interval
          (segStart + interval) batchEnd hi (by omega))

theorem indexRangeLoop_starts_increasing :
    ∀ (fuel interval segStart batchEnd : Nat), 0 < interval →
      batchEnd - segStart < fuel →
      List.Chain' (fun a b => a.1 < b.1) (indexRangeLoop fuel interval segStart batchEnd)
  | 0, _, _, _, _, _ => List.chain'_nil
  | fuel + 1, interval, segStart, batchEnd, hi, hf => by
      rw [indexRangeLoop]
      split
      · exact List.chain'_singleton _
      · rcases indexRangeLoop_first fuel interval (segStart + interval) batchEnd (by omega)
          with ⟨e1, tl, heq⟩
        rw [heq]
        exact List.Chain'.cons (by omega) (heq ▸ indexRangeLoop_starts_increasing fuel
          interval (segStart + interval) batchEnd hi (by omega))

theorem indexRangeLoop_start_lt_end :
    ∀ (fuel interval segStart batchEnd : Nat), 0 < interval → segStart < batchEnd →
      batchEnd - segStart < fuel →
      ∀ w ∈ indexRangeLoop fuel interval segStart batchEnd, w.1 < w.2
  | 0, _, _, _, _, _, hf => by omega
  | fuel + 1, interval, segStart, batchEnd, hi, hlt, hf => by
      intro w hw
      rw [indexRangeLoop] at hw
      split at hw
      · rcases List.mem_singleton.mp hw with rfl
        exact hlt
      · rcases List.mem_cons.mp hw with rfl | hw
        · simp only
          omega
        · exact indexRangeLoop_start_lt_end fuel interval (segStart + interval) batchEnd hi
            (by omega) (by omega) w hw

theorem indexRangeLoop_coverage :
    ∀ (fuel interval segStart batchEnd : Nat), 0 < interval → segStart ≤ batchEnd →
      batchEnd - segStart < fuel → ∀ x,
      (segStart ≤ x ∧ x ≤ batchEnd)
        ↔ ∃ w ∈ indexRangeLoop fuel interval segStart batchEnd, w.1 ≤ x ∧ x ≤ w.2
  | 0, _, _, _, _, _, hf => by omega
  | fuel + 1, interval, segStart, batchEnd, hi, hle, hf => by
      intro x
      rw [indexRangeLoop]
      split
      · constructor
        · exact fun hx => ⟨(segStart, batchEnd), List.mem_singleton_self _, hx.1, hx.2⟩
        · rintro ⟨w, hw, h1, h2⟩
          rcases List.mem_singleton.mp hw with rfl
          exact ⟨h1, h2⟩
      · have ih := indexRangeLoop_coverage fuel interval (segStart + interval) batchEnd hi
          (by omega) (by omega) x
        constructor
        · intro hx
          by_cases hcase : x ≤ segStart + interval
          · exact ⟨(segStart, segStart + interval), List.mem_cons_self _ _, hx.1, hcase⟩
          · rcases ih.mp ⟨by omega, hx.2⟩ with ⟨w, hw, hw1, hw2⟩
            exact ⟨w, List.mem_cons_of_mem _ hw, hw1, hw2⟩
        · rintro ⟨w, hw, h1, h2⟩
          rcases List.mem_cons.mp hw with rfl | hw
          · simp only at h1 h2
            omega
          · have := ih.mpr ⟨w, hw, h1, h2⟩
            omega

theorem index_range_windows_single (interval batchStart : Nat) :
    index_range_windows interval batchStart batchStart = [(batchStart, batchStart)] := by
  rw [index_range_windows, Nat.sub_self, indexRangeLoop,
    if_pos (Nat.le_add_right _ _)]

/-- C2: the scheduler loop sets `window_end = min(window_start + interval,
batch_end)`, advances `window_start = window_end` and stops when
`window_end = batch_end`; for batch 2020-01-01 .. 2020-03-01 with a
30-day interval the windows are (2020-01-01, 2020-01-31),
(2020-01-31, 2020-03-01): contiguous, strictly increasing, covering
exactly the batch range; and for `batch_start = batch_end` exactly one
window runs. -/
theorem claim_C2_scheduler_windows :
    (∀ interval batchStart batchEnd : Nat, 0 < interval →
        ∀ w ∈ index_range_windows interval batchStart batchEnd,
          w.2 = min (w.1 + interval) batchEnd)
    ∧ index_range_windows 30 (daysFromCivil 2020 1 1) (daysFromCivil 2020 3 1)
        = [(daysFromCivil 2020 1 1, daysFromCivil 2020 1 31),
           (daysFromCivil 2020 1 31, daysFromCivil 2020 3 1)]
    ∧ List.Chain' (fun a b => a.2 = b.1)
        (index_range_windows 30 (daysFromCivil 2020 1 1) (daysFromCivil 2020 3 1))
    ∧ List.Chain' (fun a b => a.1 < b.1)
        (index_range_windows 30 (daysFromCivil 2020 1 1) (daysFromCivil 2020 3 1))
    ∧ (∀ w ∈ index_range_windows 30 (daysFromCivil 2020 1 1) (daysFromCivil 2020 3 1),
        w.1 < w.2)
    ∧ (∀ x : Nat,
        (daysFromCivil 2020 1 1 ≤ x ∧ x ≤ daysFromCivil 2020 3 1)
          ↔ ∃ w ∈ index_range_windows 30 (daysFromCivil 2020 1 1) (daysFromCivil 2020 3 1),
              w.1 ≤ x ∧ x ≤ w.2)
    ∧ (∀ interval batchStart : Nat,
        index_range_windows interval batchStart batchStart
          = [(batchStart, batchStart)]) := by
  refine ⟨?_, by decide, ?_, ?_, ?_, ?_, index_range_windows_single⟩
  · intro interval batchStart batchEnd hi w hw
    exact indexRangeLoop_end_min _ interval batchStart batchEnd hi (by omega) w hw
  · exact indexRangeLoop_contiguous _ 30 _ _ (by norm_num) (by omega)
  · exact indexRangeLoop_starts_increasing _ 30 _ _ (by norm_num) (by omega)
  · intro w hw
    refine indexRangeLoop_start_lt_end _ 30 _ _ (by norm_num) (by decide) (by omega) w hw
  · intro x
    exact indexRangeLoop_coverage _ 30 _ _ (by norm_num) (by decide) (by omega) x

theorem claim_C2_scheduler_windows_witness :
    ((0 : Nat), 30).2 = min (((0 : Nat), 30).1 + 30) 100
    ∧ index_range_windows 7 5 5 = [(5, 5)] := by
  refine ⟨claim_C2_scheduler_windows.1 30 0 100 (by decide) (0, 30) ?_,
    claim_C2_scheduler_windows.2.2.2.2.2.2 7 5⟩
  decide

/-!
## Python-semantics helpers

Small total models of the Python operations the ingester uses on JSON
data: dict lookup/update, truthiness, `len`, `str`, string slicing.
Raised exceptions are modelled with `Except PyErr`.
-/

/-- The Python exceptions the embedded code can raise. -/
inductive PyErr where
  | keyError
  | typeError
  | attributeError
  | indexError
  | unboundLocalError
deriving DecidableEq, Repr

/-- View a value as a dict (mapping operations raise on anything else). -/
def objFields? : JVal → Option JObj
  | .obj fs => some fs
  | _ => none

/-- Python truthiness of a JSON value. -/
def pyTruthy : JVal → Bool
  | .null => false
  | .bool b => b
  | .num n => n != 0
  | .str s => s.length != 0
  | .arr l => !l.isEmpty
  | .obj o => !o.isEmpty

/-- Python `len()` where defined (strings, lists, dicts). -/
def pyLen : JVal → Option Nat
  | .str s => some s.length
  | .arr l => some l.length
  | .obj o => some o.length
  | _ => none

/-- Python `str()` of a value.  Lists and dicts render via `repr`, which
no embedded claim exercises; the marker strings keep the model total. -/
def pyStr : JVal → String
  | .null => "None"
  | .bool b => if b then "True" else "False"
  | .num n => toString n
  | .str s => s
  | .arr _ => "<list>"
  | .obj _ => "<dict>"

/-- `d[k] = v` on a dict: replace the binding if the key exists
(keeping its position), otherwise append it. -/
def setField (k : String) (v : JVal) : JObj → JObj
  | [] => [(k, v)]
  | (k', v') :: rest =>
      if k' == k then (k', v) :: rest else (k', v') :: setField k v rest

/-- Python `dict.update`: each field of `upd` overwrites an existing
binding in place or is appended in `upd` order. -/
def pyUpdate (o upd : JObj) : JObj :=
  upd.foldl (fun acc p => setField p.1 p.2 acc) o

/-- Python `int()` on a JSON value (`list(map(int, ...))` in the
gate-nlp entity normalization); numeric strings are not exercised by
the embedded code paths and are modelled as errors. -/
def pyInt : JVal → Except PyErr Int
  | .num n => .ok n
  | .bool b => .ok (if b then 1 else 0)
  | _ => .error .typeError

def pyIntList : List JVal → Except PyErr (List Int)
  | [] => .ok []
  | x :: xs => do
      let n ← pyInt x
      let ns ← pyIntList xs
      .ok (n :: ns)

/-- Python string slice `s[a:b]` (negative indices count from the end,
out-of-range bounds clamp). -/
def pySliceStr (s : String) (a b : Int) : String :=
  let n : Int := s.length
  let lo : Int := if a < 0 then max (n + a) 0 else min a n
  let hi : Int := if b < 0 then max (n + b) 0 else min b n
  ((s.data.drop lo.toNat).take (hi.toNat - lo.toNat)).asString

example : pySliceStr "flu and cough" 0 3 = "flu" := by decide
example : pyUpdate [("a", .num 1)] [("a", .num 2), ("b", .num 3)]
    = [("a", .num 2), ("b", .num 3)] := by decide

/-!
## `NlpService.query` (nlp_service.py 40-136)

The HTTP exchange is abstracted: each configured endpoint is a pair of
its URL and a function from the attempt number to the `(status_code,
parsed JSON body)` that attempt returns.  `request.json()` bodies are
`JVal`s; a body that is not valid JSON is outside the model.  The
`try/except` wrapping the whole method body (which logs the traceback
and returns `None`) is modelled by collapsing any raised `PyErr` to
`none`.
-/

/-- The `while(request.status_code != 200 and number_of_retries <
max_number_of_retries)` loop (nlp_service.py 75-80).  `retriesLeft` is
`max_number_of_retries - number_of_retries`; returns the final retry
count and the final request's `(status, body)`. -/
def retryLoop (ep : Nat → Nat × JVal) : Nat → Nat → Nat × JVal → Nat × (Nat × JVal)
  | 0, n, req => (n, req)
  | left + 1, n, req =>
      if req.1 ≠ 200 then retryLoop ep left (n + 1) (ep (n + 1)) else (n, req)

/-- One `requests.post` plus its retry loop. -/
def post_with_retries (ep : Nat → Nat × JVal) (maxRetries : Nat) : Nat × (Nat × JVal) :=
  retryLoop ep maxRetries 0 (ep 0)

/-- Per-endpoint contribution to `request_responses` (nlp_service.py
82-92): a successful truthy body (with `pipeline_url` added in gate-nlp
mode), nothing for a successful falsy body, and `{}` after retries are
exhausted. -/
def gatherOne (mode : String) (maxRetries : Nat) (url : String)
    (ep : Nat → Nat × JVal) : Except PyErr (List JVal) :=
  let res := post_with_retries ep maxRetries
  if res.2.1 == 200 then
    let cur := res.2.2
    if mode == "gate-nlp" && pyTruthy cur then
      match cur with
      | .obj fs =>
          .ok [.obj (pyUpdate fs [("pipeline_url", .str url)])]
      | _ => .error .attributeError
    else if pyTruthy cur then .ok [cur] else .ok []
  else
    .ok [.obj []]

def gatherResponses (mode : String) (maxRetries : Nat) :
    List (String × (Nat → Nat × JVal)) → Except PyErr (List JVal)
  | [] => .ok []
  | (url, ep) :: rest => do
      let contrib ← gatherOne mode maxRetries url ep
      let tl ← gatherResponses mode maxRetries rest
      .ok (contrib ++ tl)

/-- Enrichment of one gate-nlp entity (nlp_service.py 118-121): add
`type`, the global counter as `id`, the response's `pipeline_url`, the
capture timestamp, and `source_value` sliced from the RESPONSE's own
`text` field by the entity's `indices`.  `purl?`/`text?` are the
response's `pipeline_url`/`text` fields, looked up only when an entity
actually exists, as the lazily evaluated subscripts do. -/
def formatGateEntity (purl? text? : Option JVal) (ts : String) (annIndex : Nat)
    (etype : String) (ev : JVal) : Except PyErr JVal :=
  match ev with
  | .obj ef =>
      match jget "indices" ef with
      | some (.arr ixs) => do
          let ints ← pyIntList ixs
          match ints with
          | a :: b :: _ => do
              let purl ← match purl? with
                | some v => Except.ok v
                | none => Except.error PyErr.keyError
              let t ← match text? with
                | some (.str t) => Except.ok t
                | some _ => Except.error PyErr.typeError
                | none => Except.error PyErr.keyError
              .ok (.obj (pyUpdate ef
                [("type", .str etype), ("id", .num annIndex), ("pipeline_url", purl),
                 ("timestamp", .str ts), ("source_value", .str (pySliceStr t a b))]))
          | _ => .error .indexError
      | some _ => .error .typeError
      | none => .error .keyError
  | _ => .error .attributeError

/-- Normalization of one entity-type list, threading the global counter. -/
def formatGateList (purl? text? : Option JVal) (ts : String) (etype : String) :
    Nat → List JVal → Except PyErr (List (String × JVal) × Nat)
  | annIndex, [] => .ok ([], annIndex)
  | annIndex, ev :: rest => do
      let e' ← formatGateEntity purl? text? ts annIndex etype ev
      let (tl, idx') ← formatGateList purl? text? ts etype (annIndex + 1) rest
      .ok ((toString annIndex, e') :: tl, idx')

/-- Normalization of the whole type-to-entity-list mapping
(nlp_service.py 115-125), producing `formatted_result`. -/
def formatGateAll (purl? text? : Option JVal) (ts : String) :
    Nat → List (String × JVal) → Except PyErr (List (String × JVal) × Nat)
  | annIndex, [] => .ok ([], annIndex)
  | annIndex, (etype, tv) :: rest =>
      match tv with
      | .arr evs => do
          let (fs, idx') ← formatGateList purl? text? ts etype annIndex evs
          let (fs2, idx'') ← formatGateAll purl? text? ts idx' rest
          .ok (fs ++ fs2, idx'')
      | _ => .error .typeError

/-- The `medcat_info` enrichment (nlp_service.py 105-108): merge the
response's `medcat_info` fields plus `result.timestamp` into every
entity of `result.annotations.entities`. -/
def medcatEnrich (rf : JObj) (rvf : JObj) (minfo : JVal) : Except PyErr JObj := do
  match jget "annotations" rvf with
  | none => .ok rf
  | some annv => do
      let annf ← match objFields? annv with
        | some a => Except.ok a
        | none => Except.error PyErr.attributeError
      let entsv ← match jget "entities" annf with
        | some e => Except.ok e
        | none => Except.error PyErr.keyError
      let entsf ← match objFields? entsv with
        | some e => Except.ok e
        | none => Except.error PyErr.attributeError
      let minfof ← match objFields? minfo with
        | some m => Except.ok m
        | none => Except.error PyErr.typeError
      let tsv ← match jget "timestamp" rvf with
        | some t => Except.ok t
        | none => Except.error PyErr.keyError
      let entsf' ← go minfof tsv entsf
      let annf' := setField "entities" (.obj entsf') annf
      let rvf' := setField "annotations" (.obj annf') rvf
      .ok (setField "result" (.obj rvf') rf)
where
  go (minfof : JObj) (tsv : JVal) : JObj → Except PyErr JObj
    | [] => .ok []
    | (k, ev) :: rest => do
        let ef ← match objFields? ev with
          | some e => Except.ok e
          | none => Except.error PyErr.attributeError
        let rest' ← go minfof tsv rest
        .ok ((k, .obj (pyUpdate (pyUpdate ef minfof) [("timestamp", tsv)])) :: rest')

/-- The per-response merge of `final_response` (nlp_service.py 127-132):
existing dict-valued keys are shallow-merged, existing scalar keys keep
the first-seen value, new keys other than `pipeline_url` are added. -/
def mergeItems : JObj → JObj → Except PyErr JObj
  | finalf, [] => .ok finalf
  | finalf, (k, v) :: rest =>
      match jget k finalf with
      | some fv =>
          match v with
          | .obj vf =>
              match fv with
              | .obj fvf => mergeItems (setField k (.obj (pyUpdate fvf vf)) finalf) rest
              | _ => .error .attributeError
          | _ => mergeItems finalf rest
      | none =>
          if k == "pipeline_url" then mergeItems finalf rest
          else mergeItems (finalf ++ [(k, v)]) rest

/-- One iteration of the `for response in request_responses` loop
(nlp_service.py 100-132), over the state `(final_response, annotation
counter)`.  When the response carries a `result`, `final_response =
response` makes the two aliases of one dict; merging a dict into itself
is the identity, which the model reproduces by merging the updated
response into itself. -/
def mergeStep (mode ts : String) (st : JObj × Nat) (resp : JVal) :
    Except PyErr (JObj × Nat) := do
  let rf ← match objFields? resp with
    | some r => Except.ok r
    | none => Except.error PyErr.attributeError
  let hasResult := (jget "result" rf).isSome
  let rf1 ← match jget "result" rf with
    | none => Except.ok rf
    | some rv =>
        match objFields? rv with
        | none => Except.error PyErr.typeError
        | some rvf =>
            match jget "medcat_info" rf with
            | some minfo => medcatEnrich rf rvf minfo
            | none => Except.ok rf
  if mode == "gate-nlp" then do
    let (rf2, annIdx') ←
      match jget "entities" rf1 with
      | some entv =>
          if entv == .null then Except.ok (rf1, st.2) else do
            let entsf ← match objFields? entv with
              | some e => Except.ok e
              | none => Except.error PyErr.attributeError
            let (fs, idx') ←
              formatGateAll (jget "pipeline_url" rf1) (jget "text" rf1) ts st.2 entsf
            Except.ok (setField "entities" (.obj fs) rf1, idx')
      | none => Except.ok (rf1, st.2)
    let finalf := if hasResult then rf2 else st.1
    let f' ← mergeItems finalf rf2
    .ok (f', annIdx')
  else
    .ok (if hasResult then rf1 else st.1, st.2)

def mergeResponses (mode ts : String) : JObj × Nat → List JVal → Except PyErr (JObj × Nat)
  | st, [] => .ok st
  | st, r :: rest => do
      let st' ← mergeStep mode ts st r
      mergeResponses mode ts st' rest

/-- `NlpService.query` (nlp_service.py 40-136).  `text` is the queried
document text (it only shapes the posted request body, which the
endpoint functions abstract); `ts` is `datetime.now().strftime`; any
exception is logged and the method returns `None`. -/
def nlp_query (mode : String) (maxRetries : Nat) (text ts : String)
    (endpoints : List (String × (Nat → Nat × JVal))) : Option JVal :=
  match gatherResponses mode maxRetries endpoints with
  | .error _ => none
  | .ok responses =>
      match mergeResponses mode ts ([], 0) responses with
      | .error _ => none
      | .ok (finalf, _) => some (.obj finalf)

theorem retryLoop_retry_bound (ep : Nat → Nat × JVal) :
    ∀ (left n : Nat) (req : Nat × JVal), (retryLoop ep left n req).1 ≤ n + left
  | 0, n, req => Nat.le_refl n
  | left + 1, n, req => by
      rw [retryLoop]
      split
      · exact le_trans (retryLoop_retry_bound ep left (n + 1) (ep (n + 1))) (by omega)
      · omega

theorem retryLoop_all_fail (ep : Nat → Nat × JVal) (maxRetries : Nat)
    (hfail : ∀ k ≤ maxRetries, (ep k).1 ≠ 200) :
    ∀ (left n : Nat), n + left = maxRetries →
      retryLoop ep left n (ep n) = (maxRetries, ep maxRetries)
  | 0, n, h => by
      rw [retryLoop]
      have : n = maxRetries := by omega
      rw [this]
  | left + 1, n, h => by
      rw [retryLoop, if_pos (hfail n (by omega))]
      exact retryLoop_all_fail ep maxRetries hfail left (n + 1) (by omega)

theorem retryLoop_success (ep : Nat → Nat × JVal) (left n : Nat) (req : Nat × JVal)
    (h : req.1 = 200) : retryLoop ep left n req = (n, req) := by
  cases left with
  | zero => rfl
  | succ left => rw [retryLoop, if_neg (by simp [h])]

theorem post_with_retries_all_fail (ep : Nat → Nat × JVal) (maxRetries : Nat)
    (hfail : ∀ k ≤ maxRetries, (ep k).1 ≠ 200) :
    post_with_retries ep maxRetries = (maxRetries, ep maxRetries) :=
  retryLoop_all_fail ep maxRetries hfail maxRetries 0 (by omega)

theorem exceptOk_bind {ε α β : Type} (a : α) (f : α → Except ε β) :
    (Except.ok (ε := ε) a >>= f) = f a := rfl

theorem exceptErr_bind {ε α β : Type} (e : ε) (f : α → Except ε β) :
    (Except.error (α := α) e >>= f) = Except.error e := rfl

/-- C4: per endpoint, a non-200 response is retried on the same endpoint
up to `max_number_of_retries` times (so at most `maxRetries + 1`
attempts); an endpoint failing on all `maxRetries + 1` attempts
contributes only the empty dict (nothing in the merge) and raises
nothing, while a later endpoint returning 200 still contributes its
result to the merged response. -/
theorem claim_C4_retry_failover
    (maxRetries : Nat) (u1 u2 text ts : String)
    (ep1 ep2 : Nat → Nat × JVal) (R rv : JObj)
    (hfail : ∀ k ≤ maxRetries, (ep1 k).1 ≠ 200)
    (hok : ep2 0 = (200, .obj R))
    (hres : jget "result" R = some (.obj rv))
    (hmed : jget "medcat_info" R = none)
    (hne : R ≠ []) :
    (post_with_retries ep1 maxRetries).1 = maxRetries
    ∧ (∀ ep, (post_with_retries ep maxRetries).1 ≤ maxRetries)
    ∧ gatherOne "" maxRetries u1 ep1 = .ok [.obj []]
    ∧ nlp_query "" maxRetries text ts [(u1, ep1), (u2, ep2)] = some (.obj R) := by
  have h1 : post_with_retries ep1 maxRetries = (maxRetries, ep1 maxRetries) :=
    post_with_retries_all_fail ep1 maxRetries hfail
  have hmode : ("" == "gate-nlp") = false := rfl
  have hg1 : gatherOne "" maxRetries u1 ep1 = .ok [.obj []] := by
    rw [gatherOne, h1]
    simp only [beq_iff_eq]
    rw [if_neg (hfail maxRetries (Nat.le_refl _))]
  have h2 : post_with_retries ep2 maxRetries = (0, (200, .obj R)) := by
    rw [post_with_retries, hok, retryLoop_success _ _ _ _ rfl]
  have htruthy : pyTruthy (.obj R) = true := by
    cases R with
    | nil => exact absurd rfl hne
    | cons p ps => rfl
  have hg2 : gatherOne "" maxRetries u2 ep2 = .ok [.obj R] := by
    rw [gatherOne, h2]
    simp only [hmode, Bool.false_and, Bool.false_eq_true, if_false, htruthy, if_true]
    rfl
  have hstep2 : mergeStep "" ts ([], 0) (.obj R) = .ok (R, 0) := by
    rw [mergeStep]
    simp only [objFields?, exceptOk_bind, hres, hmed, Option.isSome_some, hmode,
      Bool.false_eq_true, if_false, if_true]
  refine ⟨by rw [h1], ?_, hg1, ?_⟩
  · intro ep
    rw [post_with_retries]
    simpa using retryLoop_retry_bound ep maxRetries 0 (ep 0)
  · rw [nlp_query, gatherResponses, hg1, exceptOk_bind, gatherResponses, hg2,
      exceptOk_bind, gatherResponses, exceptOk_bind, exceptOk_bind]
    show (match mergeResponses "" ts ([], 0) [.obj [], .obj R] with
      | .error _ => none
      | .ok (finalf, _) => some (JVal.obj finalf)) = some (.obj R)
    rw [mergeResponses, show mergeStep "" ts ([], 0) (.obj []) = .ok ([], 0) from rfl,
      exceptOk_bind, mergeResponses, hstep2, exceptOk_bind, mergeResponses]

theorem claim_C4_retry_failover_witness :
    (post_with_retries (fun _ => (500, JVal.null)) 3).1 = 3
    ∧ nlp_query "" 3 "some text" "12:00:00"
        [("http://nlp-a/api", fun _ => (500, JVal.null)),
         ("http://nlp-b/api", fun _ => (200, .obj [("result", .obj [("x", .num 1)])]))]
      = some (.obj [("result", .obj [("x", .num 1)])]) := by
  have h := claim_C4_retry_failover 3 "http://nlp-a/api" "http://nlp-b/api"
    "some text" "12:00:00" (fun _ => (500, JVal.null))
    (fun _ => (200, .obj [("result", .obj [("x", .num 1)])]))
    [("result", .obj [("x", .num 1)])] [("x", .num 1)]
    (fun k _ => by simp) rfl rfl rfl (by decide)
  exact ⟨h.1, h.2.2.2⟩

theorem jget_setField_self (k : String) (v : JVal) :
    ∀ o : JObj, jget k (setField k v o) = some v
  | [] => by simp [setField, jget, List.lookup]
  | (k', v') :: rest => by
      by_cases h : k' = k
      · subst h
        simp [setField, jget, List.lookup]
      · rw [setField, if_neg (by simpa using h), jget, List.lookup,
          beq_false_of_ne (Ne.symm h)]
        exact jget_setField_self k v rest

theorem jget_setField_other {k k' : String} (h : k ≠ k') (v : JVal) :
    ∀ o : JObj, jget k (setField k' v o) = jget k o
  | [] => by simp [setField, jget, List.lookup, beq_false_of_ne h]
  | (k'', v'') :: rest => by
      by_cases h2 : k'' = k'
      · subst h2
        rw [setField, if_pos (by simp)]
        simp [jget, List.lookup, beq_false_of_ne h]
      · rw [setField, if_neg (by simpa using h2), jget, List.lookup, jget, List.lookup]
        cases hbeq : k == k'' with
        | true => rfl
        | false => exact jget_setField_other h v rest

theorem pyUpdate_nil (o : JObj) : pyUpdate o [] = o := rfl

theorem pyUpdate_cons (o : JObj) (k : String) (v : JVal) (rest : JObj) :
    pyUpdate o ((k, v) :: rest) = pyUpdate (setField k v o) rest := rfl

/-- What the gate-nlp normalization promises of one emitted entity:
enriched with its type, the synthetic integer id, the responding
endpoint's `pipeline_url`, the capture timestamp, and a `source_value`
sliced from `text` by the entity's own `indices`. -/
def gateEnriched (purl : JVal) (text ts etype : String) (idv : Nat) (e : JVal) : Prop :=
  ∃ ef : JObj, e = .obj ef
    ∧ jget "type" ef = some (.str etype)
    ∧ jget "id" ef = some (.num idv)
    ∧ jget "pipeline_url" ef = some purl
    ∧ jget "timestamp" ef = some (.str ts)
    ∧ ∃ (a b : Int) (ixs : List JVal) (rest : List Int),
        jget "indices" ef = some (.arr ixs)
        ∧ pyIntList ixs = .ok (a :: b :: rest)
        ∧ jget "source_value" ef = some (.str (pySliceStr text a b))

theorem formatGateEntity_spec {purl : JVal} {text ts etype : String} {idx : Nat}
    {ev e' : JVal}
    (h : formatGateEntity (some purl) (some (.str text)) ts idx etype ev = .ok e') :
    gateEnriched purl text ts etype idx e' := by
  cases ev <;> simp only [formatGateEntity, bind, Except.bind] at h <;> try cases h
  case obj ef0 =>
  split at h
  case h_2 => cases h
  case h_3 => cases h
  case h_1 ixs hix =>
  split at h
  case h_1 => cases h
  case h_2 ints hints =>
  split at h
  case h_2 => cases h
  case h_1 a b rest =>
  simp only [Except.ok.injEq] at h
  subst h
  refine ⟨_, rfl, ?_, ?_, ?_, ?_, a, b, ixs, rest, ?_, hints, ?_⟩
  · rw [pyUpdate_cons, pyUpdate_cons, pyUpdate_cons, pyUpdate_cons,
      pyUpdate_cons, pyUpdate_nil,
      jget_setField_other (by decide), jget_setField_other (by decide),
      jget_setField_other (by decide), jget_setField_other (by decide),
      jget_setField_self]
  · rw [pyUpdate_cons, pyUpdate_cons, pyUpdate_cons, pyUpdate_cons,
      pyUpdate_cons, pyUpdate_nil,
      jget_setField_other (by decide), jget_setField_other (by decide),
      jget_setField_other (by decide), jget_setField_self]
  · rw [pyUpdate_cons, pyUpdate_cons, pyUpdate_cons, pyUpdate_cons,
      pyUpdate_cons, pyUpdate_nil,
      jget_setField_other (by decide), jget_setField_other (by decide),
      jget_setField_self]
  · rw [pyUpdate_cons, pyUpdate_cons, pyUpdate_cons, pyUpdate_cons,
      pyUpdate_cons, pyUpdate_nil,
      jget_setField_other (by decide), jget_setField_self]
  · rw [pyUpdate_cons, pyUpdate_cons, pyUpdate_cons, pyUpdate_cons,
      pyUpdate_cons, pyUpdate_nil,
      jget_setField_other (by decide), jget_setField_other (by decide),
      jget_setField_other (by decide), jget_setField_other (by decide),
      jget_setField_other (by decide), hix]
  · rw [pyUpdate_cons, pyUpdate_cons, pyUpdate_cons, pyUpdate_cons,
      pyUpdate_cons, pyUpdate_nil, jget_setField_self]

theorem formatGateList_spec {purl : JVal} {text ts etype : String} :
    ∀ (idx : Nat) (evs : List JVal) (out : List (String × JVal)) (endIdx : Nat),
      formatGateList (some purl) (some (.str text)) ts etype idx evs = .ok (out, endIdx) →
      endIdx = idx + out.length
      ∧ out.map Prod.fst = (List.range' idx out.length).map (fun n => toString n)
      ∧ ∀ p ∈ out, ∃ idv : Nat, p.1 = toString idv ∧ gateEnriched purl text ts etype idv p.2
  | idx, [], out, endIdx => by
      intro h
      simp only [formatGateList, Except.ok.injEq, Prod.mk.injEq] at h
      obtain ⟨rfl, rfl⟩ := h
      exact ⟨by simp, by simp, by simp⟩
  | idx, ev :: evs, out, endIdx => by
      intro h
      simp only [formatGateList, bind, Except.bind] at h
      split at h
      case h_1 => cases h
      case h_2 e' he =>
      split at h
      case h_1 => cases h
      case h_2 pr htl =>
      obtain ⟨tl, idx'⟩ := pr
      simp only [Except.ok.injEq, Prod.mk.injEq] at h
      obtain ⟨rfl, rfl⟩ := h
      obtain ⟨hlen, hkeys, hmem⟩ := formatGateList_spec (idx + 1) evs tl idx' htl
      refine ⟨by simp; omega, ?_, ?_⟩
      · simp only [List.map_cons, hkeys, List.length_cons, List.range'_succ, hlen]
      · intro p hp
        rcases List.mem_cons.mp hp with rfl | hp
        · exact ⟨idx, rfl, formatGateEntity_spec he⟩
        · exact hmem p hp

theorem formatGateAll_spec {purl : JVal} {text ts : String} :
    ∀ (idx : Nat) (ents out : List (String × JVal)) (endIdx : Nat),
      formatGateAll (some purl) (some (.str text)) ts idx ents = .ok (out, endIdx) →
      endIdx = idx + out.length
      ∧ out.map Prod.fst = (List.range' idx out.length).map (fun n => toString n)
      ∧ ∀ p ∈ out, ∃ (etype : String) (idv : Nat),
          etype ∈ ents.map Prod.fst ∧ p.1 = toString idv
          ∧ gateEnriched purl text ts etype idv p.2
  | idx, [], out, endIdx => by
      intro h
      simp only [formatGateAll, Except.ok.injEq, Prod.mk.injEq] at h
      obtain ⟨rfl, rfl⟩ := h
      exact ⟨by simp, by simp, by simp⟩
  | idx, (etype, tv) :: ents, out, endIdx => by
      intro h
      simp only [formatGateAll, bind, Except.bind] at h
      split at h
      case h_2 => cases h
      case h_1 evs =>
      split at h
      case h_1 => cases h
      case h_2 pr hfs =>
      obtain ⟨fs, idx1⟩ := pr
      split at h
      case h_1 => cases h
      case h_2 pr2 hfs2 =>
      obtain ⟨fs2, idx2⟩ := pr2
      simp only [Except.ok.injEq, Prod.mk.injEq] at h
      obtain ⟨rfl, rfl⟩ := h
      obtain ⟨hlen1, hkeys1, hmem1⟩ := formatGateList_spec idx evs fs idx1 hfs
      obtain ⟨hlen2, hkeys2, hmem2⟩ := formatGateAll_spec idx1 ents fs2 idx2 hfs2
      refine ⟨by simp; omega, ?_, ?_⟩
      · rw [List.map_append, hkeys1, hkeys2, ← List.map_append, List.length_append]
        congr 1
        rw [hlen1, List.range'_append_1, Nat.add_comm]
      · intro p hp
        rcases List.mem_append.mp hp with hp | hp
        · rcases hmem1 p hp with ⟨idv, h1, h2⟩
          exact ⟨etype, idv, by simp, h1, h2⟩
        · rcases hmem2 p hp with ⟨et, idv, hin, h1, h2⟩
          exact ⟨et, idv, by simp [hin], h1, h2⟩

/-- C6 counterexample: the gate-nlp normalization slices `source_value`
from the RESPONSE's own `text` field (nlp_service.py 121:
`response["text"][indices[0]:indices[1]]`), not from the original input
text.  With input text "flu and cough" but a response whose `text`
differs, the normalized entity's `source_value` is "XYZ", not the
input-text slice "flu". -/
theorem claim_C6_gate_normalization_counterexample :
    nlp_query "gate-nlp" 3 "flu and cough" "12:00:00"
      [("http://gate/api", fun _ => (200, .obj [("text", .str "XYZ WVU"),
         ("entities", .obj [("disease", .arr [.obj [("indices", .arr [.num 0, .num 3])]])])]))]
    = some (.obj [("text", .str "XYZ WVU"),
        ("entities", .obj [("0", .obj [("indices", .arr [.num 0, .num 3]),
          ("type", .str "disease"), ("id", .num 0),
          ("pipeline_url", .str "http://gate/api"), ("timestamp", .str "12:00:00"),
          ("source_value", .str "XYZ")])])])
    ∧ "XYZ" ≠ pySliceStr "flu and cough" 0 3 := by
  constructor
  · decide
  · decide

/-- C6 (amended): in flat-entities (gate-nlp) normalization, every entity
of the type-to-list mapping is enriched with its type, a globally
incrementing integer id (also used as the output key), the responding
endpoint URL, the capture timestamp, and a `source_value` equal to the
substring of the RESPONSE's `text` field sliced by the entity's indices;
for the response `{"text": "flu and cough", "entities": {"disease":
[{"indices": [0, 3]}]}}` (the response echoing the source text
"flu and cough") the normalized entity has type "disease",
source_value "flu" and synthetic integer id 0. -/
theorem claim_C6_gate_normalization_amended :
    (∀ (purl : JVal) (text ts : String) (idx : Nat) (ents out : List (String × JVal))
       (endIdx : Nat),
      formatGateAll (some purl) (some (.str text)) ts idx ents = .ok (out, endIdx) →
        endIdx = idx + out.length
        ∧ out.map Prod.fst = (List.range' idx out.length).map (fun n => toString n)
        ∧ ∀ p ∈ out, ∃ (etype : String) (idv : Nat),
            etype ∈ ents.map Prod.fst ∧ p.1 = toString idv
            ∧ gateEnriched purl text ts etype idv p.2)
    ∧ nlp_query "gate-nlp" 3 "flu and cough" "12:00:00"
        [("http://gate/api", fun _ => (200, .obj [("text", .str "flu and cough"),
           ("entities", .obj [("disease", .arr [.obj [("indices", .arr [.num 0, .num 3])]])])]))]
      = some (.obj [("text", .str "flu and cough"),
          ("entities", .obj [("0", .obj [("indices", .arr [.num 0, .num 3]),
            ("type", .str "disease"), ("id", .num 0),
            ("pipeline_url", .str "http://gate/api"), ("timestamp", .str "12:00:00"),
            ("source_value", .str "flu")])])]) := by
  constructor
  · intro purl text ts idx ents out endIdx h
    exact formatGateAll_spec idx ents out endIdx h
  · decide

theorem claim_C6_gate_normalization_amended_witness :
    [("0", JVal.obj [("indices", .arr [.num 0, .num 3]),
        ("type", .str "disease"), ("id", .num 0),
        ("pipeline_url", .str "http://gate/api"), ("timestamp", .str "12:00:00"),
        ("source_value", .str "flu")])].map Prod.fst
      = (List.range' 0 1).map (fun n => toString n) :=
  (claim_C6_gate_normalization_amended.1 (.str "http://gate/api") "flu and cough"
    "12:00:00" 0
    [("disease", .arr [.obj [("indices", .arr [.num 0, .num 3])]])]
    [("0", JVal.obj [("indices", .arr [.num 0, .num 3]),
        ("type", .str "disease"), ("id", .num 0),
        ("pipeline_url", .str "http://gate/api"), ("timestamp", .str "12:00:00"),
        ("source_value", .str "flu")])] 1 rfl).2.1

/-!
## `ElasticIndexer` naming (es_common.py 98-133)

`get_index_name` resolves the target index from the configured base name
and an optional suffix; `_format_index_name` lower-cases, strips
leading/trailing `.`/`_`/`-`/`+` and replaces forbidden characters.  The
per-indexer `index_name_cache` only memoizes `_format_index_name` and is
observationally the identity, so it is not modelled.
-/

/-- Python `str.strip(c)`: drop the character from both ends. -/
def stripChar (c : Char) (l : List Char) : List Char :=
  ((l.dropWhile (· == c)).reverse.dropWhile (· == c)).reverse

/-- Python `str.replace(a, b)` for a one-character pattern. -/
def replace1 (a b : Char) (l : List Char) : List Char :=
  l.map fun c => if c == a then b else c

/-- Python `str.replace(a1 + a2, rep)` for a two-character pattern. -/
def replace2 (a1 a2 rep : Char) : List Char → List Char
  | [] => []
  | [c] => [c]
  | c1 :: c2 :: cs =>
      if c1 == a1 && c2 == a2 then rep :: replace2 a1 a2 rep cs
      else c1 :: replace2 a1 a2 rep (c2 :: cs)

/-- `_format_index_name` (es_common.py 98-113).  Python's
`.replace('\/', '_')` holds an unrecognized escape, so it looks for a
backslash-slash PAIR, which the preceding backslash replacement has
already destroyed; it is kept as the same no-op two-character
replacement. -/
def format_index_name (s : String) : String :=
  (replace1 ' ' '_' <| replace1 '|' '_' <| replace1 '>' '_' <| replace1 '<' '_' <|
   replace1 '"' '_' <| replace1 '?' '_' <| replace1 '*' '_' <| replace2 '\\' '/' '_' <|
   replace1 '\\' '_' <| replace1 '#' '_' <|
   stripChar '+' <| stripChar '-' <| stripChar '_' <| stripChar '.' <|
   s.data.map Char.toLower).asString

/-- `get_index_name` (es_common.py 115-133). -/
def get_index_name (indexName : String) (suffix : String := "")
    (searchOnly : Bool := false) : String :=
  if suffix.length > 0 then
    if searchOnly && suffix == "*" then indexName ++ "-*"
    else format_index_name (indexName ++ "-" ++ suffix)
  else format_index_name indexName

example : get_index_name "My Index" = "my_index" := by decide
example : get_index_name "obs" "Disease" = "obs-disease" := by decide

/-!
## `AnnotationsIndexer` (annotations_indexer.py)

The configuration is the subset of `AnnotationIndexerConfig` plus the
two indexers' base index names and the NLP service's
`use_bulk_indexing` flag that `_process_document` and its callees read.
The sink indexer is abstracted by the results of the three ES queries
the code performs against it.
-/

/-- Fields of `AnnotationIndexerConfig` (annotations_indexer.py 18-49)
read by the document-processing path, plus `source_index_name` /
`sink_index_name` (the indexers' configured base names) and
`use_bulk_indexing` (read from the attached `NlpService`). -/
structure IndexerConfig where
  source_text_field : String
  source_docid_field : String
  source_fields_to_persist : List String
  split_index_by_field : String
  skip_doc_check : Bool
  nlp_ann_id_field : String
  same_index_ingest : Bool
  use_nested_objects : Bool
  use_bulk_indexing : Bool
  source_index_name : String
  sink_index_name : String

/-- The sink indexer, abstracted by what the three ES calls made against
it return: `doc_exists({"_id": id})`, `get_doc(id)`, and
`doc_exists({field: value}, index_suffix)`. -/
structure SinkState where
  existsById : String → Bool
  getDoc : String → JObj
  existsByMatch : String → JVal → String → Bool

/-- Body of an emitted ES operation: a plain `_source` document, the
painless script that replaces the whole `annotations` array with its
params (the `"ctx._source.annotations = params.annotations"` script of
`_prepare_annotations`), or the partial-document
`{"doc": {"annotations": ...}}` update body of `_index_annotations`. -/
inductive OpBody where
  | docSource (fields : JObj)
  | scriptSetAnns (anns : List JVal)
  | docAnns (anns : List JVal)
deriving DecidableEq, Repr

/-- One write operation sent to ES (a streaming-bulk action dict or a
direct `index`/`update` call). -/
structure WriteOp where
  opId : Option String
  opType : String
  index : String
  body : OpBody
deriving DecidableEq, Repr

/-- `MIN_TEXT_LEN` (annotations_indexer.py 66). -/
def MIN_TEXT_LEN : Nat := 5

/-- `_document_already_processed` (annotations_indexer.py 80-101). -/
def document_already_processed (cfg : IndexerConfig) (sink : SinkState)
    (doc : JObj) : Except PyErr Bool :=
  if cfg.same_index_ingest then
    match jget "annotations" doc with
    | some v =>
        match pyLen v with
        | some n => .ok (decide (0 < n))
        | none => .error .typeError
    | none => .ok false
  else
    let suffix := if cfg.split_index_by_field.length > 0 then "*" else ""
    match jget cfg.source_docid_field doc with
    | some v => .ok (sink.existsByMatch ("meta." ++ cfg.source_docid_field) v suffix)
    | none => .error .keyError

/-- The `meta.<field>` fields-to-persist dict both merge strategies
build (annotations_indexer.py 123-127, 187-192, 204-208). -/
def persistFields (cfg : IndexerConfig) (document : JObj) : JObj :=
  cfg.source_fields_to_persist.foldl (fun acc field =>
    match jget field document with
    | some v => setField ("meta." ++ field) v acc
    | none => acc) []

/-- One refined separate-mode record: persisted source fields prefixed
`meta.`, then the entity's own fields prefixed `nlp.`
(annotations_indexer.py 203-212). -/
def refineAnn (cfg : IndexerConfig) (document : JObj) (entityFields : JObj) : JObj :=
  entityFields.foldl (fun acc p => setField ("nlp." ++ p.1) p.2 acc)
    (persistFields cfg document)

/-- One separate-mode operation dict (annotations_indexer.py 203-225):
the refined `meta.`/`nlp.` record, the split-routed target index, and
the `doc-<docid>-ann-<annid>` operation id, with the subscripts raising
`KeyError` in evaluation order (split field, then the document's docid
field, then the entity's annotation-id field). -/
def separateOpOf (cfg : IndexerConfig) (document : JObj) (ef : JObj) :
    Except PyErr WriteOp := do
  let indexName ←
    if cfg.split_index_by_field.length > 0 then
      match jget cfg.split_index_by_field ef with
      | some sv => pure (get_index_name cfg.sink_index_name (pyStr sv))
      | none => Except.error PyErr.keyError
    else pure (get_index_name cfg.sink_index_name)
  let dv ← match jget cfg.source_docid_field document with
    | some dv => pure dv
    | none => Except.error PyErr.keyError
  let av ← match jget cfg.nlp_ann_id_field ef with
    | some av => pure av
    | none => Except.error PyErr.keyError
  pure ⟨some ("doc-" ++ pyStr dv ++ "-ann-" ++ pyStr av), "index",
    indexName, .docSource (refineAnn cfg document ef)⟩

/-- The separate-mode generator loop of `_prepare_annotations`
(annotations_indexer.py 202-227): ops already yielded before a raised
exception are kept in the first component, the exception in the second. -/
def separateOps (cfg : IndexerConfig) (document : JObj) :
    List (String × JVal) → List WriteOp × Option PyErr
  | [] => ([], none)
  | (_, ev) :: rest =>
      match objFields? ev with
      | none => ([], some .attributeError)
      | some ef =>
          match separateOpOf cfg document ef with
          | .error e => ([], some e)
          | .ok op =>
              let (ops, err?) := separateOps cfg document rest
              (op :: ops, err?)

/-- `_prepare_annotations` (annotations_indexer.py 140-227), the bulk
merge strategy, as the list of yielded operations plus the exception
the generator raises after them, if any.  In the nested-objects branch,
a pre-existing sink record without an `annotations` field leaves the
local `operation` unassigned and `yield operation` raises
`UnboundLocalError`. -/
def prepare_annotations (cfg : IndexerConfig) (sink : SinkState)
    (annotations_entities : JVal) (document : JObj) (src_doc_id : String) :
    List WriteOp × Option PyErr :=
  match objFields? annotations_entities with
  | none => ([], some .attributeError)
  | some ents =>
      let refined0 := ents.map Prod.snd
      if cfg.same_index_ingest then
        match jget "annotations" document with
        | none =>
            ([⟨some src_doc_id, "update", get_index_name cfg.source_index_name,
               .scriptSetAnns refined0⟩], none)
        | some (.arr old) =>
            ([⟨some src_doc_id, "update", get_index_name cfg.source_index_name,
               .scriptSetAnns (remove_duplicate_records (refined0 ++ old))⟩], none)
        | some _ => ([], some .typeError)
      else if cfg.use_nested_objects then
        match jget cfg.source_docid_field document with
        | none => ([], some .keyError)
        | some dv =>
            let ann_doc_id := "doc_" ++ pyStr dv ++ "_annotations"
            if sink.existsById ann_doc_id then
              let ann_doc := sink.getDoc ann_doc_id
              match jget "annotations" ann_doc with
              | some (.arr old) =>
                  ([⟨some ann_doc_id, "update", get_index_name cfg.sink_index_name,
                     .scriptSetAnns (remove_duplicate_records (refined0 ++ old))⟩], none)
              | some _ => ([], some .typeError)
              | none => ([], some .unboundLocalError)
            else
              ([⟨some ann_doc_id, "index", get_index_name cfg.sink_index_name,
                 .docSource (("annotations", .arr refined0) :: persistFields cfg document)⟩],
               none)
      else
        separateOps cfg document ents

/-- `_index_annotations` (annotations_indexer.py 103-138), the non-bulk
path.  In same-index mode the `es.update` call passes no document id; in
the separate-record branch `for ann in annotations` iterates the DICT
KEYS (strings), so `ann.items()` raises `AttributeError` as soon as one
entity exists. -/
def index_annotations (cfg : IndexerConfig) (annotations_entities : JVal)
    (document : JObj) (src_doc_id : String) : List WriteOp × Option PyErr :=
  match objFields? annotations_entities with
  | none => ([], some .attributeError)
  | some ents =>
      let upd0 := ents.map Prod.snd
      match (match jget "annotations" document with
             | none => Except.ok upd0
             | some (.arr old) => Except.ok (upd0 ++ old)
             | some _ => Except.error PyErr.typeError) with
      | .error e => ([], some e)
      | .ok updated =>
          if cfg.same_index_ingest then
            ([⟨none, "update", get_index_name cfg.source_index_name,
               .docAnns updated⟩], none)
          else if cfg.use_nested_objects then
            ([⟨some (src_doc_id ++ "_annotations"), "index",
               get_index_name cfg.sink_index_name,
               .docSource (setField "annotations" (.arr updated) document)⟩], none)
          else
            match ents with
            | [] => ([], none)
            | _ :: _ => ([], some .attributeError)

/-- How one `_process_document` call ends (annotations_indexer.py
235-297): skipped at the content gate, skipped as already processed,
returned for a missing result payload, indexed, an exception absorbed
inside `ElasticIndexer.index_docs_bulk_gen` (es_common.py 192-193), an
exception caught by the processor's own `except` (annotations_indexer.py
296-297), or an exception raised by the content gate itself, which sits
OUTSIDE the `try` block. -/
inductive ProcStatus where
  | skippedNoContent
  | skippedAlreadyProcessed
  | noResultPayload
  | indexed
  | errorAtBulkLayer
  | errorAtProcessor
  | uncaughtTypeError
deriving DecidableEq, Repr

/-- Observable outcome of one `_process_document` call: whether the NLP
service was queried, whether the already-processed gate ran, which write
operations were issued, and how the call ended. -/
structure ProcOutcome where
  nlpQueried : Bool
  dupGateChecked : Bool
  writes : List WriteOp
  status : ProcStatus
deriving DecidableEq, Repr

/-- Transform + write (annotations_indexer.py 291-294): bulk mode streams
the `_prepare_annotations` generator through `index_docs_bulk_gen`, whose
own `except` absorbs any exception the generator raises; the non-bulk
path's exceptions propagate to the processor's `except`. -/
def processIndex (cfg : IndexerConfig) (sink : SinkState) (entv : JVal)
    (doc : JObj) (src_doc_id : String) (dg : Bool) : ProcOutcome :=
  if cfg.use_bulk_indexing then
    let res := prepare_annotations cfg sink entv doc src_doc_id
    ⟨true, dg, res.1, if res.2.isSome then .errorAtBulkLayer else .indexed⟩
  else
    let res := index_annotations cfg entv doc src_doc_id
    ⟨true, dg, res.1, if res.2.isSome then .errorAtProcessor else .indexed⟩

/-- Query + response-shape dispatch (annotations_indexer.py 260-294),
with the NLP response given as the value `nlp_service.query` returned. -/
def processQuery (cfg : IndexerConfig) (sink : SinkState) (nlpResponse : JVal)
    (doc : JObj) (src_doc_id : String) (dg : Bool) : ProcOutcome :=
  match objFields? nlpResponse with
  | none => ⟨true, dg, [], .errorAtProcessor⟩
  | some resp =>
      match jget "result" resp with
      | some rv =>
          match objFields? rv with
          | none => ⟨true, dg, [], .errorAtProcessor⟩
          | some rf =>
              match jget "annotations" rf with
              | none => ⟨true, dg, [], .noResultPayload⟩
              | some .null => ⟨true, dg, [], .noResultPayload⟩
              | some annv =>
                  match objFields? annv with
                  | none => ⟨true, dg, [], .errorAtProcessor⟩
                  | some af =>
                      match jget "entities" af with
                      | none => ⟨true, dg, [], .noResultPayload⟩
                      | some .null => ⟨true, dg, [], .noResultPayload⟩
                      | some entv => processIndex cfg sink entv doc src_doc_id dg
      | none =>
          match jget "entities" resp with
          | some entv =>
              if entv == .null then ⟨true, dg, [], .noResultPayload⟩
              else processIndex cfg sink entv doc src_doc_id dg
          | none => ⟨true, dg, [], .noResultPayload⟩

/-- The `try` block of `_process_document` (annotations_indexer.py
250-297): the already-processed gate runs only when `skip_doc_check` is
set; any exception below it is caught and logged by the trailing
`except`. -/
def processTry (cfg : IndexerConfig) (sink : SinkState) (nlpResponse : JVal)
    (doc : JObj) (src_doc_id : String) : ProcOutcome :=
  if cfg.skip_doc_check then
    match document_already_processed cfg sink doc with
    | .error _ => ⟨false, true, [], .errorAtProcessor⟩
    | .ok true => ⟨false, true, [], .skippedAlreadyProcessed⟩
    | .ok false => processQuery cfg sink nlpResponse doc src_doc_id true
  else
    processQuery cfg sink nlpResponse doc src_doc_id false

/-- `_process_document` (annotations_indexer.py 235-297).  The content
gate (244-248) runs before the `try` block: a dict document whose text
field is absent or `None` short-circuits the skip, otherwise
`len(doc[text_field]) < MIN_TEXT_LEN` decides it (raising `TypeError`
outside any handler if the value has no `len`). -/
def process_document (cfg : IndexerConfig) (sink : SinkState) (nlpResponse : JVal)
    (doc : JObj) (src_doc_id : String) : ProcOutcome :=
  match jget cfg.source_text_field doc with
  | none => ⟨false, false, [], .skippedNoContent⟩
  | some .null => ⟨false, false, [], .skippedNoContent⟩
  | some v =>
      match pyLen v with
      | none => ⟨false, false, [], .uncaughtTypeError⟩
      | some n =>
          if n < MIN_TEXT_LEN then ⟨false, false, [], .skippedNoContent⟩
          else processTry cfg sink nlpResponse doc src_doc_id

/-- A sink with no records: every existence check fails. -/
def sinkNever : SinkState :=
  ⟨fun _ => false, fun _ => [], fun _ _ _ => false⟩

/-- A sample separate-mode configuration used to instantiate theorems. -/
def sepCfg : IndexerConfig :=
  ⟨"text", "docid", [], "", false, "id", false, false, true, "source-idx", "sink-idx"⟩

/-- C3: a document whose configured text field is absent, null, or a
string shorter than `MIN_TEXT_LEN = 5` is skipped before the NLP query:
the service is not called and no write is performed. -/
theorem claim_C3_short_text_skips_before_query (cfg : IndexerConfig) (sink : SinkState)
    (nlpResponse : JVal) (doc : JObj) (src_doc_id : String)
    (h : jget cfg.source_text_field doc = none
       ∨ jget cfg.source_text_field doc = some .null
       ∨ ∃ s, jget cfg.source_text_field doc = some (.str s) ∧ s.length < MIN_TEXT_LEN) :
    MIN_TEXT_LEN = 5
    ∧ process_document cfg sink nlpResponse doc src_doc_id
        = ⟨false, false, [], .skippedNoContent⟩ := by
  refine ⟨rfl, ?_⟩
  rcases h with h | h | ⟨s, h, hlen⟩
  · simp only [process_document, h]
  · simp only [process_document, h]
  · simp only [process_document, h, pyLen, if_pos hlen]

theorem claim_C3_short_text_skips_before_query_witness :
    MIN_TEXT_LEN = 5
    ∧ process_document sepCfg sinkNever .null [("text", .str "flu")] "d1"
        = ⟨false, false, [], .skippedNoContent⟩ :=
  claim_C3_short_text_skips_before_query sepCfg sinkNever .null
    [("text", .str "flu")] "d1" (.inr (.inr ⟨"flu", rfl, by decide⟩))

theorem processQuery_no_dup_skip (cfg : IndexerConfig) (sink : SinkState)
    (nlpResponse : JVal) (doc : JObj) (src_doc_id : String) (dg : Bool) :
    (processQuery cfg sink nlpResponse doc src_doc_id dg).dupGateChecked = dg
    ∧ (processQuery cfg sink nlpResponse doc src_doc_id dg).status
        ≠ .skippedAlreadyProcessed := by
  unfold processQuery processIndex
  repeat' split
  all_goals try simp
  all_goals split <;> simp

/-- C7: the already-processed gate runs only when `skip_doc_check` is
set (when the flag is off the gate is bypassed and never skips a
document); when it runs, a document is skipped iff
`_document_already_processed` holds, which in same-index mode means a
non-empty `annotations` field on the source document and otherwise means
existence in the sink of a record whose `meta.<docid-field>` matches the
source document's id value. -/
theorem claim_C7_dup_gate (cfg : IndexerConfig) (sink : SinkState)
    (nlpResponse : JVal) (doc : JObj) (src_doc_id : String) :
    (cfg.skip_doc_check = false →
        (process_document cfg sink nlpResponse doc src_doc_id).dupGateChecked = false
        ∧ (process_document cfg sink nlpResponse doc src_doc_id).status
            ≠ .skippedAlreadyProcessed)
    ∧ (∀ s : String, cfg.skip_doc_check = true →
        jget cfg.source_text_field doc = some (.str s) → MIN_TEXT_LEN ≤ s.length →
        (document_already_processed cfg sink doc = .ok true →
            process_document cfg sink nlpResponse doc src_doc_id
              = ⟨false, true, [], .skippedAlreadyProcessed⟩)
        ∧ (document_already_processed cfg sink doc = .ok false →
            (process_document cfg sink nlpResponse doc src_doc_id).status
              ≠ .skippedAlreadyProcessed))
    ∧ (cfg.same_index_ingest = true →
        (document_already_processed cfg sink doc = .ok true
          ↔ ∃ v n, jget "annotations" doc = some v ∧ pyLen v = some n ∧ 0 < n))
    ∧ (cfg.same_index_ingest = false → ∀ dv, jget cfg.source_docid_field doc = some dv →
        document_already_processed cfg sink doc
          = .ok (sink.existsByMatch ("meta." ++ cfg.source_docid_field) dv
              (if cfg.split_index_by_field.length > 0 then "*" else ""))) := by
  refine ⟨?_, ?_, ?_, ?_⟩
  · intro hflag
    rw [process_document]
    split
    · exact ⟨rfl, by simp⟩
    · exact ⟨rfl, by simp⟩
    · split
      · exact ⟨rfl, by simp⟩
      · split
        · exact ⟨rfl, by simp⟩
        · rw [processTry, if_neg (by simp [hflag])]
          exact processQuery_no_dup_skip cfg sink nlpResponse doc src_doc_id false
  · intro s hflag htext hlen
    have hgate : process_document cfg sink nlpResponse doc src_doc_id
        = processTry cfg sink nlpResponse doc src_doc_id := by
      simp only [process_document, htext, pyLen, if_neg (by omega : ¬ s.length < MIN_TEXT_LEN)]
    constructor
    · intro hdap
      rw [hgate, processTry, if_pos hflag, hdap]
    · intro hdap
      rw [hgate, processTry, if_pos hflag, hdap]
      exact (processQuery_no_dup_skip cfg sink nlpResponse doc src_doc_id true).2
  · intro hsame
    rw [document_already_processed, if_pos hsame]
    constructor
    · intro h
      split at h
      case h_2 => simp at h
      case h_1 v hv =>
      split at h
      case h_2 => cases h
      case h_1 n hn =>
      simp only [Except.ok.injEq, decide_eq_true_eq] at h
      exact ⟨v, n, hv, hn, h⟩
    · rintro ⟨v, n, hv, hn, hpos⟩
      simp [hv, hn, hpos]
  · intro hsame dv hdv
    rw [document_already_processed, if_neg (by simp [hsame]), hdv]

instance {e a : Type} [DecidableEq e] [DecidableEq a] : DecidableEq (Except e a) :=
  fun x y =>
    match x, y with
    | .ok v, .ok w => if h : v = w then isTrue (by rw [h]) else isFalse (by simp [h])
    | .error v, .error w => if h : v = w then isTrue (by rw [h]) else isFalse (by simp [h])
    | .ok _, .error _ => isFalse (by simp)
    | .error _, .ok _ => isFalse (by simp)

theorem claim_C7_dup_gate_witness :
    process_document
      ⟨"text", "docid", [], "", true, "id", false, false, true, "source-idx", "sink-idx"⟩
      ⟨fun _ => false, fun _ => [], fun _ _ _ => true⟩
      .null [("text", .str "flu and cough"), ("docid", .str "d1")] "d1"
      = ⟨false, true, [], .skippedAlreadyProcessed⟩
    ∧ document_already_processed
        ⟨"text", "docid", [], "", true, "id", false, false, true, "source-idx", "sink-idx"⟩
        ⟨fun _ => false, fun _ => [], fun _ _ _ => true⟩
        [("text", .str "flu and cough"), ("docid", .str "d1")]
      = .ok ((fun (_ : String) (_ : JVal) (_ : String) => true) "meta.docid" (.str "d1") "") := by
  constructor
  · exact ((claim_C7_dup_gate
      ⟨"text", "docid", [], "", true, "id", false, false, true, "source-idx", "sink-idx"⟩
      ⟨fun _ => false, fun _ => [], fun _ _ _ => true⟩ .null
      [("text", .str "flu and cough"), ("docid", .str "d1")] "d1").2.1
      "flu and cough" rfl rfl (by decide)).1 (by decide)
  · exact (claim_C7_dup_gate
      ⟨"text", "docid", [], "", true, "id", false, false, true, "source-idx", "sink-idx"⟩
      ⟨fun _ => false, fun _ => [], fun _ _ _ => true⟩ .null
      [("text", .str "flu and cough"), ("docid", .str "d1")] "d1").2.2.2 rfl
      (.str "d1") rfl

theorem objFields?_eq_some {v : JVal} {fs : JObj} (h : objFields? v = some fs) :
    v = .obj fs := by
  cases v <;> simp only [objFields?, Option.some.injEq, reduceCtorEq] at h
  rw [h]

theorem separateOpOf_spec {cfg : IndexerConfig} {document ef : JObj} {op : WriteOp}
    {dv : JVal} (hdv : jget cfg.source_docid_field document = some dv)
    (h : separateOpOf cfg document ef = .ok op) :
    ∃ av, jget cfg.nlp_ann_id_field ef = some av
      ∧ op.opId = some ("doc-" ++ pyStr dv ++ "-ann-" ++ pyStr av)
      ∧ op.opType = "index"
      ∧ op.body = .docSource (refineAnn cfg document ef) := by
  rw [separateOpOf] at h
  simp only [bind, Except.bind, pure, Except.pure, hdv] at h
  split at h
  · split at h
    case h_1 sv hsv =>
      split at h
      case h_1 av hav =>
        simp only [Except.ok.injEq] at h
        exact ⟨av, hav, by rw [← h], by rw [← h], by rw [← h]⟩
      case h_2 => cases h
    case h_2 => cases h
  · split at h
    case h_1 av hav =>
      simp only [Except.ok.injEq] at h
      exact ⟨av, hav, by rw [← h], by rw [← h], by rw [← h]⟩
    case h_2 => cases h

theorem separateOps_spec {cfg : IndexerConfig} {document : JObj} {dv : JVal}
    (hdv : jget cfg.source_docid_field document = some dv) :
    ∀ ents : List (String × JVal),
      ∀ op ∈ (separateOps cfg document ents).1,
        ∃ p ∈ ents, ∃ ef av, p.2 = .obj ef
          ∧ jget cfg.nlp_ann_id_field ef = some av
          ∧ op.opId = some ("doc-" ++ pyStr dv ++ "-ann-" ++ pyStr av)
          ∧ op.opType = "index"
          ∧ op.body = .docSource (refineAnn cfg document ef)
  | [], op, hop => by simp [separateOps] at hop
  | (i, ev) :: rest, op, hop => by
      rw [separateOps] at hop
      split at hop
      case h_1 => simp at hop
      case h_2 ef hef =>
      split at hop
      case h_1 => simp at hop
      case h_2 op0 hstep =>
      rcases List.mem_cons.mp hop with rfl | hop
      · rcases separateOpOf_spec hdv hstep with ⟨av, hav, h1, h2, h3⟩
        exact ⟨(i, ev), List.mem_cons_self _ _, ef, av, objFields?_eq_some hef,
          hav, h1, h2, h3⟩
      · rcases separateOps_spec hdv rest op hop with ⟨p, hp, hrest⟩
        exact ⟨p, List.mem_cons_of_mem _ hp, hrest⟩

/-- C1: in separate mode every emitted operation id is
`doc-<sourceDocId>-ann-<entityIdField>`, built from the document's
configured doc-id field and the entity's configured annotation-id field,
and the merge strategy is deterministic: two runs on the same pair
produce identical operation ids. -/
theorem claim_C1_separate_mode_op_ids (cfg : IndexerConfig) (sink : SinkState)
    (ents : List (String × JVal)) (document : JObj) (src_doc_id : String) (dv : JVal)
    (hsame : cfg.same_index_ingest = false)
    (hnested : cfg.use_nested_objects = false)
    (hdv : jget cfg.source_docid_field document = some dv) :
    (∀ op ∈ (prepare_annotations cfg sink (.obj ents) document src_doc_id).1,
        ∃ p ∈ ents, ∃ ef av, p.2 = .obj ef
          ∧ jget cfg.nlp_ann_id_field ef = some av
          ∧ op.opId = some ("doc-" ++ pyStr dv ++ "-ann-" ++ pyStr av))
    ∧ (prepare_annotations cfg sink (.obj ents) document src_doc_id).1.map WriteOp.opId
        = (prepare_annotations cfg sink (.obj ents) document src_doc_id).1.map
            WriteOp.opId := by
  have hsep : prepare_annotations cfg sink (.obj ents) document src_doc_id
      = separateOps cfg document ents := by
    rw [prepare_annotations]
    simp only [objFields?, hsame, hnested, Bool.false_eq_true, if_false]
  refine ⟨?_, rfl⟩
  intro op hop
  rw [hsep] at hop
  rcases separateOps_spec hdv ents op hop with ⟨p, hp, ef, av, h1, h2, h3, _⟩
  exact ⟨p, hp, ef, av, h1, h2, h3⟩

theorem claim_C1_separate_mode_op_ids_witness :
    ∃ p ∈ [(("0" : String), JVal.obj [("id", .str "e1")])], ∃ ef av,
      p.2 = JVal.obj ef
      ∧ jget "id" ef = some av
      ∧ (some "doc-d1-ann-e1" : Option String)
          = some ("doc-" ++ pyStr (.str "d1") ++ "-ann-" ++ pyStr av) := by
  have h := (claim_C1_separate_mode_op_ids sepCfg sinkNever
    [("0", .obj [("id", .str "e1")])] [("docid", .str "d1")] "d1" (.str "d1")
    rfl rfl rfl).1
    ⟨some "doc-d1-ann-e1", "index", "sink-idx", .docSource [("nlp.id", .str "e1")]⟩
    (by decide)
  rcases h with ⟨p, hp, ef, av, h1, h2, h3⟩
  exact ⟨p, hp, ef, av, h1, h2, h3⟩

/-- C8: the spec's invariant "a document-id field is always included
among persisted fields, even if the caller's configuration omits it"
is NOT implemented: with `fields-to-persist` omitting the doc-id field,
the separate-mode record carries no `meta.docid` field at all, and as a
consequence `_document_already_processed` (which matches on
`meta.<docid-field>`, annotations_indexer.py 96-101, per its own comment
"individual annotations will contain the original document id") can
never find the very record the pipeline just wrote. -/
theorem claim_C8_docid_not_always_persisted :
    prepare_annotations sepCfg sinkNever
        (.obj [("0", .obj [("id", .str "e1")])])
        [("docid", .str "d1"), ("text", .str "flu and cough")] "d1"
      = ([⟨some "doc-d1-ann-e1", "index", "sink-idx",
           .docSource [("nlp.id", .str "e1")]⟩], none)
    ∧ jget ("meta." ++ sepCfg.source_docid_field) [("nlp.id", .str "e1")] = none
    ∧ document_already_processed sepCfg
        ⟨fun _ => false, fun _ => [],
         fun f v _ => jget f [("nlp.id", .str "e1")] == some v⟩
        [("docid", .str "d1"), ("text", .str "flu and cough")]
      = .ok false :=
  ⟨by decide, by decide, by decide⟩

/-- A sample same-index configuration. -/
def sameIdxCfg : IndexerConfig :=
  ⟨"text", "docid", [], "", false, "id", true, false, true, "source-idx", "sink-idx"⟩

/-- C9 counterexample: in same-index mode the payload is deduplicated
ONLY when the document already carries an `annotations` field
(annotations_indexer.py 150-153); for a document without one and two
identical entities the emitted payload keeps the duplicate, while the
deduplicated union the claim promises would not. -/
theorem claim_C9_same_index_counterexample :
    prepare_annotations sameIdxCfg sinkNever
        (.obj [("0", .obj [("a", .num 1)]), ("1", .obj [("a", .num 1)])])
        [("text", .str "flu and cough")] "d1"
      = ([⟨some "d1", "update", "source-idx",
           .scriptSetAnns [.obj [("a", .num 1)], .obj [("a", .num 1)]]⟩], none)
    ∧ remove_duplicate_records [.obj [("a", .num 1)], .obj [("a", .num 1)]]
        = [.obj [("a", .num 1)]]
    ∧ ([JVal.obj [("a", .num 1)], .obj [("a", .num 1)]] : List JVal)
        ≠ [.obj [("a", .num 1)]] := by
  refine ⟨by decide, ?_, by decide⟩
  simp only [remove_duplicate_records, canonicalForm, canonicalFormFields,
    canonicalFormList, sortFields, dedupRecords, List.map]
  decide

/-- C9 (amended): in same-index mode exactly one `update` operation is
emitted, targeting the source collection with the source document's own
id and never the sink; its payload is the deduplicated union of the new
entities with the existing `annotations` array when the document has
one, and exactly the new entities (NOT deduplicated) when it has none. -/
theorem claim_C9_same_index_amended (cfg : IndexerConfig) (sink : SinkState)
    (ents : List (String × JVal)) (document : JObj) (src_doc_id : String)
    (hsame : cfg.same_index_ingest = true) :
    (jget "annotations" document = none →
        prepare_annotations cfg sink (.obj ents) document src_doc_id
          = ([⟨some src_doc_id, "update", get_index_name cfg.source_index_name,
              .scriptSetAnns (ents.map Prod.snd)⟩], none))
    ∧ (∀ old, jget "annotations" document = some (.arr old) →
        prepare_annotations cfg sink (.obj ents) document src_doc_id
          = ([⟨some src_doc_id, "update", get_index_name cfg.source_index_name,
              .scriptSetAnns (remove_duplicate_records (ents.map Prod.snd ++ old))⟩],
             none))
    ∧ (get_index_name cfg.sink_index_name ≠ get_index_name cfg.source_index_name →
        ∀ op ∈ (prepare_annotations cfg sink (.obj ents) document src_doc_id).1,
          op.index ≠ get_index_name cfg.sink_index_name) := by
  have hpre : prepare_annotations cfg sink (.obj ents) document src_doc_id
      = match jget "annotations" document with
        | none => ([⟨some src_doc_id, "update", get_index_name cfg.source_index_name,
            .scriptSetAnns (ents.map Prod.snd)⟩], none)
        | some (.arr old) => ([⟨some src_doc_id, "update",
            get_index_name cfg.source_index_name,
            .scriptSetAnns (remove_duplicate_records (ents.map Prod.snd ++ old))⟩], none)
        | some _ => ([], some .typeError) := by
    rw [prepare_annotations]
    simp only [objFields?, hsame, if_true]
  refine ⟨fun h => by rw [hpre, h], fun old h => by rw [hpre, h], ?_⟩
  intro hne op hop
  rw [hpre] at hop
  rcases hann : jget "annotations" document with _ | v
  · rw [hann] at hop
    simp only [List.mem_singleton] at hop
    subst hop
    exact Ne.symm hne
  · rw [hann] at hop
    cases v <;> simp only [List.mem_singleton, List.not_mem_nil] at hop
    case arr old =>
      subst hop
      exact Ne.symm hne

theorem claim_C9_same_index_amended_witness :
    prepare_annotations sameIdxCfg sinkNever (.obj [("0", .obj [("a", .num 1)])])
        [("text", .str "flu and cough")] "d1"
      = ([⟨some "d1", "update", get_index_name sameIdxCfg.source_index_name,
          .scriptSetAnns [.obj [("a", .num 1)]]⟩], none) :=
  (claim_C9_same_index_amended sameIdxCfg sinkNever [("0", .obj [("a", .num 1)])]
    [("text", .str "flu and cough")] "d1" rfl).1 rfl

/-- C10 (amended): in nested-objects bulk mode, when the sink already
holds the record `doc_<sourceDocId>_annotations` but that record has no
`annotations` field, the generator raises `UnboundLocalError` before
yielding anything, so no write is emitted; the error is caught and
logged inside the bulk-indexing layer (`index_docs_bulk_gen`,
es_common.py 192-193), so the document processor's own handler never
sees it. -/
theorem claim_C10_nested_unbound_local (cfg : IndexerConfig) (sink : SinkState)
    (ents : List (String × JVal)) (doc : JObj) (src_doc_id : String)
    (s : String) (dv : JVal)
    (hbulk : cfg.use_bulk_indexing = true)
    (hsame : cfg.same_index_ingest = false)
    (hnested : cfg.use_nested_objects = true)
    (hflag : cfg.skip_doc_check = false)
    (htext : jget cfg.source_text_field doc = some (.str s))
    (hlen : MIN_TEXT_LEN ≤ s.length)
    (hdv : jget cfg.source_docid_field doc = some dv)
    (hex : sink.existsById ("doc_" ++ pyStr dv ++ "_annotations") = true)
    (hnoann : jget "annotations" (sink.getDoc ("doc_" ++ pyStr dv ++ "_annotations"))
        = none) :
    prepare_annotations cfg sink (.obj ents) doc src_doc_id
      = ([], some .unboundLocalError)
    ∧ process_document cfg sink (.obj [("entities", .obj ents)]) doc src_doc_id
        = ⟨true, false, [], .errorAtBulkLayer⟩ := by
  have hpre : prepare_annotations cfg sink (.obj ents) doc src_doc_id
      = ([], some .unboundLocalError) := by
    rw [prepare_annotations]
    simp only [objFields?, hsame, Bool.false_eq_true, if_false, hnested, if_true,
      hdv, hex, hnoann]
  refine ⟨hpre, ?_⟩
  have h1 : process_document cfg sink (.obj [("entities", .obj ents)]) doc src_doc_id
      = processTry cfg sink (.obj [("entities", .obj ents)]) doc src_doc_id := by
    simp only [process_document, htext, pyLen,
      if_neg (by omega : ¬ s.length < MIN_TEXT_LEN)]
  rw [h1, processTry, if_neg (by simp [hflag]), processQuery]
  show (match jget "entities" [("entities", JVal.obj ents)] with
    | some entv =>
        if entv == JVal.null then
          (⟨true, false, [], .noResultPayload⟩ : ProcOutcome)
        else processIndex cfg sink entv doc src_doc_id false
    | none => ⟨true, false, [], .noResultPayload⟩) = ⟨true, false, [], .errorAtBulkLayer⟩
  show (if JVal.obj ents == JVal.null then
          (⟨true, false, [], .noResultPayload⟩ : ProcOutcome)
        else processIndex cfg sink (.obj ents) doc src_doc_id false)
      = ⟨true, false, [], .errorAtBulkLayer⟩
  rw [if_neg (by simp [(by cases ents <;> simp [JVal.beq] : JVal.beq (.obj ents) .null = false)] )]
  rw [processIndex, if_pos hbulk, hpre]
  rfl

/-- A sample nested-objects bulk configuration. -/
def nestedCfg : IndexerConfig :=
  ⟨"text", "docid", [], "", false, "id", false, true, true, "source-idx", "sink-idx"⟩

/-- A sink holding `doc_d1_annotations` as a record WITHOUT an
`annotations` field. -/
def sinkBareRecord : SinkState :=
  ⟨fun i => i == "doc_d1_annotations", fun _ => [("x", .num 1)], fun _ _ _ => false⟩

/-- C10 counterexample: the `UnboundLocalError` raised by the generator
is absorbed inside the bulk-indexing layer (`index_docs_bulk_gen`'s own
`except`, es_common.py 192-193), so the run for this document ends at
the bulk layer — NOT caught at the document-processor boundary as the
claim states. -/
theorem claim_C10_nested_unbound_local_counterexample :
    process_document nestedCfg sinkBareRecord
        (.obj [("entities", .obj [("0", .obj [("id", .str "e1")])])])
        [("text", .str "flu and cough"), ("docid", .str "d1")] "d1"
      = ⟨true, false, [], .errorAtBulkLayer⟩
    ∧ ProcStatus.errorAtBulkLayer ≠ ProcStatus.errorAtProcessor :=
  ⟨by decide, by decide⟩

theorem claim_C10_nested_unbound_local_witness :
    prepare_annotations nestedCfg sinkBareRecord
        (.obj [("0", .obj [("id", .str "e1")])])
        [("text", .str "flu and cough"), ("docid", .str "d1")] "d1"
      = ([], some .unboundLocalError)
    ∧ process_document nestedCfg sinkBareRecord
        (.obj [("entities", .obj [("0", .obj [("id", .str "e1")])])])
        [("text", .str "flu and cough"), ("docid", .str "d1")] "d1"
      = ⟨true, false, [], .errorAtBulkLayer⟩ :=
  claim_C10_nested_unbound_local nestedCfg sinkBareRecord
    [("0", .obj [("id", .str "e1")])]
    [("text", .str "flu and cough"), ("docid", .str "d1")] "d1"
    "flu and cough" (.str "d1") rfl rfl rfl rfl rfl (by decide) rfl (by decide) rfl
